import Mathlib

/-!
Verification development for the SkyPulse content-aggregation core.

The definitions below are a shallow embedding of the Python sources:
  - src/rss_service.py   (feed items)
  - src/news.py          (aggregation engine: merge, stable sort, dedup, cap)
  - src/finance_service.py (rate-limited TTL cache)
  - src/bot.py           (subscription registration and the dispatcher tick)

Conventions of the embedding:
  - timestamps are integers (seconds); Python floats only carry epoch seconds here;
  - network effects are passed in as explicit oracles / response values;
  - Python None results become Option.none;
  - Python exceptions become Except.error;
  - Python list.sort(key=..., reverse=True) is a stable sort and is embedded as
    the stable insertion sort List.insertionSort over the same total preorder;
  - str.lower / str.strip are embedded character-wise (ASCII case folding,
    whitespace trimming), which is what the data in question exercises.
-/

open List

namespace SkyPulse

/-! ### Data model: feed items and articles (src/rss_service.py, src/news.py) -/

/-- One parsed feed entry as built by RSSService.fetch_feed: title, link,
published string, and a numeric freshness timestamp (0 when unparseable). -/
structure RawItem where
  title : String
  link : String
  published : String
  timestamp : Option Int
deriving DecidableEq, Repr

/-- An article inside the aggregation pipeline: a feed entry stamped with the
source display name by NewsService._fetch_source. -/
structure Article where
  title : String
  link : String
  published : String
  timestamp : Option Int
  source_name : String
deriving DecidableEq, Repr

/-- Sort key used by the aggregator: x.get("timestamp", 0). -/
def tsKey (a : Article) : Int := a.timestamp.getD 0

/-- Character-list trimming of surrounding whitespace, embedding str.strip(). -/
def trimChars (cs : List Char) : List Char :=
  ((cs.dropWhile Char.isWhitespace).reverse.dropWhile Char.isWhitespace).reverse

/-- Title normalization used for dedup: art["title"].lower().strip(). -/
def normTitle (s : String) : String :=
  String.mk (trimChars (s.toList.map Char.toLower))

/-- The descending-freshness order: a may precede b when the key of b is at
most the key of a. This is the total preorder realized by
all_articles.sort(key=lambda x: x.get("timestamp", 0), reverse=True). -/
def artLE (a b : Article) : Prop := tsKey b ≤ tsKey a

instance : DecidableRel artLE := fun a b => inferInstanceAs (Decidable (tsKey b ≤ tsKey a))

instance : IsTotal Article artLE := ⟨fun a b => le_total (tsKey b) (tsKey a)⟩

instance : IsTrans Article artLE := ⟨fun _ _ _ h1 h2 => le_trans h2 h1⟩

/-- Stable descending sort of the merged article pile (news.py line 91).
Python list.sort is stable; the stable insertion sort realizes the same
function on the same total preorder. -/
def sortArticles (l : List Article) : List Article := List.insertionSort artLE l

/-- Dedup by normalized title keeping the first occurrence, carrying the
seen_titles set (news.py lines 94-101). -/
def dedupArticles (seen : List String) : List Article → List Article
  | [] => []
  | a :: rest =>
    if normTitle a.title ∈ seen then dedupArticles seen rest
    else a :: dedupArticles (normTitle a.title :: seen) rest

/-- The aggregation result dict: {"source": "Smart Mix", "articles": ...}. -/
structure NewsResult where
  source : String
  articles : List Article
deriving DecidableEq, Repr

def smartMixLabel : String := "Smart Mix 🧠"

/-- Flattening of the gathered per-source results (news.py lines 81-84):
failed sources (None) are dropped, the rest are concatenated in source order. -/
def collectArticles : List (Option (List Article)) → List Article
  | [] => []
  | some l :: rest => l ++ collectArticles rest
  | none :: rest => collectArticles rest

/-- The merge step of NewsService.get_news_by_category after the gather
(news.py lines 81-106): flatten, return None when nothing survived, sort by
freshness descending, dedup by normalized title, truncate to the top 7. -/
def aggregate (results : List (Option (List Article))) : Option NewsResult :=
  let all := collectArticles results
  if all.isEmpty then none
  else some ⟨smartMixLabel, (dedupArticles [] (sortArticles all)).take 7⟩

/-- Source stamping done by NewsService._fetch_source (news.py lines 113-115). -/
def stampSource (name : String) (r : RawItem) : Article :=
  ⟨r.title, r.link, r.published, r.timestamp, name⟩

/-- NewsService._fetch_source (news.py lines 108-117): given the fetch_feed
outcome for a url, a falsy result (failure or empty feed) becomes None,
otherwise every item is stamped with the source name. -/
def fetchSource (name : String) (fetched : Option (List RawItem)) : Option (List Article) :=
  match fetched with
  | none => none
  | some data => if data.isEmpty then none else some (data.map (stampSource name))

/-! ### The feed-channel table (news.py lines 10-58) -/

def generalChannels : List (String × String) :=
  [("Lenta.ru", "https://lenta.ru/rss/news"),
   ("TASS", "https://tass.ru/rss/v2.xml"),
   ("RIA", "https://ria.ru/export/rss2/archive/index.xml"),
   ("Interfax", "https://www.interfax.ru/rss.asp"),
   ("Rossiyskaya Gazeta", "https://rg.ru/xml/index.xml"),
   ("Regnum", "https://regnum.ru/rss"),
   ("Moskovsky Komsomolets", "https://www.mk.ru/rss/index.xml"),
   ("AiF", "https://aif.ru/rss/news.php"),
   ("TV Zvezda", "https://tvzvezda.ru/export/rss.xml")]

def RSS_CHANNELS : List (String × List (String × String)) :=
  [("general", generalChannels),
   ("technology",
    [("Habr", "https://habr.com/ru/rss/all/all/"),
     ("3DNews", "https://www.3dnews.ru/news/rss/"),
     ("CNews", "https://www.cnews.ru/inc/rss/news.xml"),
     ("Rozetked", "https://rozetked.me/turbo"),
     ("Tproger", "https://tproger.ru/feed/")]),
   ("business",
    [("RBC", "https://rssexport.rbc.ru/rbcnews/news/30/full.rss"),
     ("Kommersant", "https://www.kommersant.ru/RSS/news.xml"),
     ("Vedomosti", "https://www.vedomosti.ru/rss/news")]),
   ("sports",
    [("Sports.ru", "https://www.sports.ru/rss/all_news.xml"),
     ("Sport-Express", "https://www.sport-express.ru/services/materials/news/se/")]),
   ("auto", [("Kolesa.ru", "https://www.kolesa.ru/rss")]),
   ("entertainment", [("Kino.mail", "https://kino.mail.ru/rss")]),
   ("science", [("Naked Science", "https://naked-science.ru/feed/")]),
   ("health", [("Lifehacker (Здоровье)", "https://lifehacker.ru/tag/zdorove/feed/")])]

def generalKey : String := "general"

/-- Dict lookup RSS_CHANNELS.get(category). -/
def lookupChannels (category : String) : Option (List (String × String)) :=
  (RSS_CHANNELS.find? (fun p => p.1 == category)).map Prod.snd

/-- RSS_CHANNELS.get(category, RSS_CHANNELS["general"]) (news.py line 72). -/
def getSources (category : String) : List (String × String) :=
  (lookupChannels category).getD generalChannels

/-- Aggregation over an explicit source list: fan out one fetch per (name, url)
pair through the oracle, then merge. The oracle stands for RSSService.fetch_feed. -/
def getNewsOfSources (srcs : List (String × String))
    (oracle : String → String → Option (List RawItem)) : Option NewsResult :=
  aggregate (srcs.map (fun p => fetchSource p.1 (oracle p.1 p.2)))

/-- NewsService.get_news_by_category (news.py lines 67-106). -/
def get_news_by_category (category : String)
    (oracle : String → String → Option (List RawItem)) : Option NewsResult :=
  getNewsOfSources (getSources category) oracle

/-! ### Rendering (news.py lines 119-140) -/

def noNewsText : String := "❌ Не удалось получить новости по этой категории (все источники молчат). 😔"

def nbspStr : String := " "

def spaceStr : String := " "

def newlineStr : String := "\n"

/-- The three lines emitted for item number i (news.py lines 128-138). -/
def articleLines (i : Nat) (a : Article) : List String :=
  let cleanTitle := (String.replace a.title nbspStr spaceStr).trim
  [toString i ++ ". <a href=\x27" ++ a.link ++ "\x27>" ++ cleanTitle ++ "</a>",
   "   <i>Источник: " ++ a.source_name ++ "</i>",
   ""]

/-- enumerate(articles, 1). -/
def numberFrom (i : Nat) : List Article → List (Nat × Article)
  | [] => []
  | a :: rest => (i, a) :: numberFrom (i + 1) rest

/-- NewsService.format_news (news.py lines 119-140): a missing result or an
empty article list renders the no-content message, otherwise the header and
the numbered article lines are joined with newlines. -/
def format_news (data : Option NewsResult) (categoryTitle : String) : String :=
  match data with
  | none => noNewsText
  | some d =>
    if d.articles.isEmpty then noNewsText
    else
      String.intercalate newlineStr
        (["<b>" ++ categoryTitle ++ "</b>", ""] ++
          (numberFrom 1 d.articles).foldr (fun p acc => articleLines p.1 p.2 ++ acc) [])

/-! ### Rate-limited cache (src/finance_service.py lines 8-40) -/

/-- The rates payload: the "rates" mapping of the API response. -/
abbrev Rates := List (String × Int)

/-- The mutable cache state of FinanceService: _cache and _cache_time. -/
structure FinState where
  cache : Rates
  cacheTime : Int
deriving DecidableEq, Repr

/-- self._ttl = 3600. -/
def finTTL : Int := 3600

/-- Possible outcomes of the single upstream request in get_rates:
HTTP 200 with result == "success" and a rates mapping, a non-200 status,
a 200 answer whose result field is not "success", or a raised exception. -/
inductive ApiResponse
  | ok (rates : Rates)
  | badStatus (status : Nat)
  | badPayload
  | netError (msg : String)
deriving DecidableEq, Repr

/-- The cache-hit test of get_rates line 24: `if self._cache and (now - self._cache_time < self._ttl)`.
Pythons truthiness makes an empty rates dict count as no cache. -/
def isCacheHit (st : FinState) (now : Int) : Bool :=
  !st.cache.isEmpty && decide (now - st.cacheTime < finTTL)

/-- One call of FinanceService.get_rates: the returned payload (None on
failure), the state after the call, and whether a network request was made. -/
structure RatesOutcome where
  result : Option Rates
  state : FinState
  fetched : Bool
deriving DecidableEq, Repr

/-- FinanceService.get_rates (finance_service.py lines 21-40). On a cache hit
the entry is returned without a network call. Otherwise one fetch happens:
on success the entry and timestamp are overwritten and the new payload is
returned; on every failure mode None is returned and the state is untouched. -/
def get_rates (st : FinState) (now : Int) (resp : ApiResponse) : RatesOutcome :=
  if isCacheHit st now then ⟨some st.cache, st, false⟩
  else
    match resp with
    | .ok rates => ⟨some rates, ⟨rates, now⟩, true⟩
    | .badStatus _ => ⟨none, st, true⟩
    | .badPayload => ⟨none, st, true⟩
    | .netError _ => ⟨none, st, true⟩

/-! ### Dispatcher clock formatting and subscriptions (src/bot.py) -/

/-- Zero padding to two digits, as in strftime and f-string 02d formatting. -/
def pad2 (n : Nat) : String := if n < 10 then String.mk ['0'] ++ toString n else toString n

def colonStr : String := ":"

/-- strftime("%H:%M") of the UTC instant t (seconds since epoch, shifted):
hours and minutes of the second-of-day, zero padded. -/
def fmtHM (t : Int) : String :=
  let sod := (t.emod 86400).toNat
  pad2 (sod / 3600) ++ colonStr ++ pad2 (sod % 3600 / 60)

/-- One stored subscription record: {"city": ..., "time": ..., "tz": ...}. -/
structure Subscription where
  city : String
  time : String
  tz : Int
deriving DecidableEq, Repr

/-- The per-tick trigger scan of broadcast_worker (bot.py lines 931-938): for
each held subscription compute user local time now + tz, format to HH:MM and
fire exactly when it equals the configured time. Returns the user ids for
which a fetch-and-deliver is issued this tick. -/
def broadcastTick (now : Int) (subs : List (Nat × Subscription)) : List Nat :=
  subs.filterMap (fun p => if fmtHM (now + p.2.tz) == p.2.time then some p.1 else none)

/-- Digit-string to number, embedding int() on the matched digit groups. -/
def charsToNat (cs : List Char) : Nat :=
  cs.foldl (fun acc c => acc * 10 + (c.toNat - 48)) 0

/-- Digit and range check on the two matched groups: int() conversion plus
the bounds test 0 <= h <= 23 and 0 <= m <= 59 of bot.py line 899. -/
def checkHM (hcs mcs : List Char) : Option (Nat × Nat) :=
  if (hcs ++ mcs).all Char.isDigit then
    if charsToNat hcs ≤ 23 && charsToNat mcs ≤ 59 then
      some (charsToNat hcs, charsToNat mcs)
    else none
  else none

/-- The time validation of process_sub_time (bot.py lines 891-904):
strip, match the regex shape digit{1,2} colon digit{2}, parse both groups,
and bound check them. None models every rejection branch. -/
def parseSubTime (raw : String) : Option (Nat × Nat) :=
  match trimChars raw.toList with
  | [a, c, b1, b2] => if c = ':' then checkHM [a] [b1, b2] else none
  | [a1, a2, c, b1, b2] => if c = ':' then checkHM [a1, a2] [b1, b2] else none
  | _ => none

/-- subscriptions[uid] = record: replace the record under an existing key,
otherwise add it. -/
def upsert (uid : Nat) (s : Subscription) : List (Nat × Subscription) → List (Nat × Subscription)
  | [] => [(uid, s)]
  | (k, v) :: rest => if k = uid then (uid, s) :: rest else (k, v) :: upsert uid s rest

def lookupSub (uid : Nat) : List (Nat × Subscription) → Option Subscription
  | [] => none
  | (k, v) :: rest => if k = uid then some v else lookupSub uid rest

/-- process_sub_time (bot.py lines 889-921) restricted to the subscription
store: on invalid input the store is unchanged, on valid input the time is
normalized to zero-padded HH:MM and the record is stored under the user id. -/
def process_sub_time (raw : String) (uid : Nat) (city : String) (tz : Int)
    (store : List (Nat × Subscription)) : List (Nat × Subscription) :=
  match parseSubTime raw with
  | none => store
  | some (h, m) => upsert uid ⟨city, pad2 h ++ colonStr ++ pad2 m, tz⟩ store

/-! ### Dispatcher tick body and loop step (bot.py lines 924-952) -/

/-- Weather payload delivered to a subscriber; opaque for the dispatcher. -/
structure WeatherData where
  payload : String
deriving DecidableEq, Repr

/-- The external world one subscription sees during a tick: the outcome of
ws.get_current for its city (None is the fetch-failure sentinel, get_current
catches its own exceptions) and the outcome of bot.send_message. -/
structure SubWorld where
  fetched : Option WeatherData
  sendResult : Except String Unit

/-- What happened to one subscription inside the tick body. -/
inductive SubReport
  | skipped
  | fetchFailed
  | delivered
  | deliverFailedLogged (e : String)
deriving DecidableEq, Repr

/-- The body of the per-subscription loop of broadcast_worker (bot.py lines
931-947). The send_message call sits in its own try block, so a delivery
error is caught, logged and turned into a normal report; a fetch failure is
the None sentinel and is skipped silently. Except is the ambient exception
channel of the tick body. -/
def processSub (now : Int) (world : Nat → SubWorld) (p : Nat × Subscription) :
    Except String SubReport :=
  if fmtHM (now + p.2.tz) == p.2.time then
    match (world p.1).fetched with
    | none => Except.ok SubReport.fetchFailed
    | some _ =>
      match (world p.1).sendResult with
      | Except.ok _ => Except.ok SubReport.delivered
      | Except.error e => Except.ok (SubReport.deliverFailedLogged e)
  else Except.ok SubReport.skipped

/-- The whole tick body: process the held subscriptions in order; an uncaught
exception in one body aborts the traversal (that is what the Except bind
models), a normal report lets the loop continue with the next subscription. -/
def runTick (now : Int) (world : Nat → SubWorld) :
    List (Nat × Subscription) → Except String (List SubReport)
  | [] => Except.ok []
  | p :: rest => do
    let r ← processSub now world p
    let rs ← runTick now world rest
    Except.ok (r :: rs)

/-- One iteration of the while-True loop of broadcast_worker (bot.py lines
927-952): on a normal tick sleep 60 minus the current second, on an exception
escaping the tick body log it and sleep the fixed 60; in both cases the loop
continues (the Bool component). -/
def loopStep (tick : Except String (List SubReport)) (second : Nat) : Nat × Bool :=
  match tick with
  | Except.ok _ => (60 - second, true)
  | Except.error _ => (60, true)

/-! ### Concrete inputs used by witnesses and counterexamples -/

/-- A concrete article with the given title and timestamp. -/
def cexArt (t : String) (ts : Int) : Article := ⟨t, "#", "-", some ts, "SrcA"⟩

/-- Eight articles with pairwise distinct normalized titles. -/
def cexArticles : List Article :=
  [cexArt ("t1") 80, cexArt ("t2") 70, cexArt ("t3") 60, cexArt ("t4") 50,
   cexArt ("t5") 40, cexArt ("t6") 30, cexArt ("t7") 20, cexArt ("t8") 10]

def cexResults : List (Option (List Article)) := [some cexArticles]

def cexT8 : String := "t8"

/-- The duplicate-title scenario of the spec: feed A has the story at t=100,
feed B has the case and whitespace variant at t=150. -/
def wArtA : Article := ⟨"Storm Hits City", "#", "-", some 100, "Feed A"⟩

def wArtB : Article := ⟨"storm hits city ", "#", "-", some 150, "Feed B"⟩

def wResults : List (Option (List Article)) := [some [wArtA], some [wArtB]]

def wOut : NewsResult := ⟨smartMixLabel, [wArtB]⟩

/-- A three-article input with a freshness tie between the two items of the
second source. -/
def w2X : Article := ⟨"X", "#", "-", some 150, "S1"⟩

def w2Y : Article := ⟨"Y", "#", "-", some 150, "S2"⟩

def w2Z : Article := ⟨"Z", "#", "-", some 100, "S0"⟩

def w2Results : List (Option (List Article)) := [some [w2Z], none, some [w2X, w2Y]]

def w2Out : NewsResult := ⟨smartMixLabel, [w2X, w2Y, w2Z]⟩

/-- The always-failing feed oracle. -/
def noFeed : String → String → Option (List RawItem) := fun _ _ => none

def memesKey : String := "memes"

def newsHeader : String := "Новости"

/-- The subscription of the spec scenario: user 42, Paris, 08:30, offset +3600. -/
def parisSub : Subscription := ⟨"Paris", "08:30", 3600⟩

def parisSubs : List (Nat × Subscription) := [(42, parisSub)]

/-- First call of the C5 counterexample: empty cache, successful fetch whose
rates mapping is empty. -/
def finEmptyFirst : RatesOutcome := get_rates ⟨[], 0⟩ 1000 (ApiResponse.ok [])

/-- Second call one time unit later, well inside the TTL. -/
def finSecond : RatesOutcome :=
  get_rates finEmptyFirst.state 1001 (ApiResponse.ok [("RUB", 90)])

/-! ### Theorems: rate-limited cache (claims C4, C5, C10) -/

/-- Claim C4, counterexample: with a non-empty but expired previous entry and
a failing fetch, get_rates propagates the failure (None) to the caller even
though a previous entry exists; the stale entry is only left in storage. This
refutes the stale-but-available-to-the-caller part of the claim. -/
theorem get_rates_stale_counterexample :
    (get_rates ⟨[("RUB", 90)], 0⟩ 5000 (ApiResponse.netError ("boom"))).result = none ∧
    ([("RUB", 90)] : Rates) ≠ [] ∧
    (get_rates ⟨[("RUB", 90)], 0⟩ 5000 (ApiResponse.netError ("boom"))).state.cache
      = [("RUB", 90)] := by
  decide

/-- Claim C4 (amended): when the entry is absent or expired, a successful
fetch overwrites the entry and its timestamp, while a failed fetch leaves the
stored state untouched but returns FetchFailure (None) to the caller
regardless of whether a previous entry exists. -/
theorem get_rates_failure_keeps_entry :
    ∀ (st : FinState) (now : Int) (resp : ApiResponse),
      isCacheHit st now = false →
      ((∀ rates : Rates, resp ≠ ApiResponse.ok rates) →
        get_rates st now resp = ⟨none, st, true⟩) ∧
      (∀ rates : Rates, resp = ApiResponse.ok rates →
        get_rates st now resp = ⟨some rates, ⟨rates, now⟩, true⟩) := by
  intro st now resp h
  constructor
  · intro hne
    cases resp with
    | ok rates => exact absurd rfl (hne rates)
    | badStatus s => simp [get_rates, h]
    | badPayload => simp [get_rates, h]
    | netError m => simp [get_rates, h]
  · intro rates hr
    subst hr
    simp [get_rates, h]

/-- Witness for the amended C4 at a concrete expired state and failed fetch. -/
theorem get_rates_failure_keeps_entry_witness :
    get_rates ⟨[("RUB", 90)], 0⟩ 5000 (ApiResponse.badStatus 500)
      = ⟨none, ⟨[("RUB", 90)], 0⟩, true⟩ :=
  (get_rates_failure_keeps_entry ⟨[("RUB", 90)], 0⟩ 5000 (ApiResponse.badStatus 500)
      (by decide)).1 (fun _ h => ApiResponse.noConfusion h)

/-- Claim C5, counterexample: the first call succeeds with an empty rates
mapping, the second call happens strictly within the TTL of the fetch time,
yet the second call performs another network fetch and returns a different
payload: Python truthiness of the empty dict disables the cache hit. -/
theorem get_rates_ttl_counterexample :
    finEmptyFirst.result = some [] ∧ finEmptyFirst.fetched = true ∧
    (1001 : Int) - finEmptyFirst.state.cacheTime < finTTL ∧
    finSecond.fetched = true ∧ finSecond.result ≠ finEmptyFirst.result := by
  decide

/-- A call that hits the cache returns the entry, changes nothing and fetches
nothing. -/
theorem get_rates_hit :
    ∀ (st : FinState) (now : Int) (resp : ApiResponse),
      isCacheHit st now = true → get_rates st now resp = ⟨some st.cache, st, false⟩ := by
  intro st now resp h
  simp [get_rates, h]

/-- If a call returns a payload, that payload is exactly the cache content of
the state after the call. -/
theorem get_rates_result_cached :
    ∀ (st : FinState) (now : Int) (resp : ApiResponse) (rates : Rates),
      (get_rates st now resp).result = some rates →
      (get_rates st now resp).state.cache = rates := by
  intro st now resp rates h
  by_cases hh : isCacheHit st now
  · simp [get_rates, hh] at h ⊢
    exact h
  · cases resp with
    | ok r => simp [get_rates, hh] at h ⊢; exact h
    | badStatus s => simp [get_rates, hh] at h
    | badPayload => simp [get_rates, hh] at h
    | netError m => simp [get_rates, hh] at h

/-- Claim C5 (amended): provided the first call returns a non-empty payload,
a second call strictly within the TTL of the stored fetch time returns the
identical payload without a network fetch; and any call made once the TTL
has elapsed performs a fresh fetch. The empty-payload case is excluded: see
the counterexample and claim C10. -/
theorem get_rates_ttl_cached_hit :
    ∀ (st : FinState) (n1 : Int) (r1 : ApiResponse) (n2 : Int) (r2 : ApiResponse)
      (rates : Rates),
      (get_rates st n1 r1).result = some rates → rates ≠ [] →
      n2 - (get_rates st n1 r1).state.cacheTime < finTTL →
      ((get_rates ((get_rates st n1 r1).state) n2 r2).result = some rates ∧
        (get_rates ((get_rates st n1 r1).state) n2 r2).fetched = false) ∧
      ∀ (st2 : FinState) (n3 : Int) (r3 : ApiResponse),
        finTTL ≤ n3 - st2.cacheTime → (get_rates st2 n3 r3).fetched = true := by
  intro st n1 r1 n2 r2 rates h1 hne h2
  have hcache : (get_rates st n1 r1).state.cache = rates := get_rates_result_cached st n1 r1 rates h1
  have hhit : isCacheHit ((get_rates st n1 r1).state) n2 = true := by
    unfold isCacheHit
    rw [hcache]
    simp [List.isEmpty_iff, hne, h2]
  constructor
  · constructor
    · rw [get_rates_hit _ _ r2 hhit, hcache]
    · rw [get_rates_hit _ _ r2 hhit]
  · intro st2 n3 r3 h3
    have hmiss : isCacheHit st2 n3 = false := by
      unfold isCacheHit
      simp only [Bool.and_eq_false_iff]
      right
      simpa using not_lt.mpr h3
    cases r3 with
    | ok r => simp [get_rates, hmiss]
    | badStatus s => simp [get_rates, hmiss]
    | badPayload => simp [get_rates, hmiss]
    | netError m => simp [get_rates, hmiss]

/-- Witness for the amended C5: a concrete fetch at time 10 followed by a
call at time 20 that is served from the cache without fetching. -/
theorem get_rates_ttl_cached_hit_witness :
    (get_rates ((get_rates ⟨[], 0⟩ 10 (ApiResponse.ok [("RUB", 90)])).state) 20
        (ApiResponse.badStatus 500)).result = some [("RUB", 90)] ∧
    (get_rates ((get_rates ⟨[], 0⟩ 10 (ApiResponse.ok [("RUB", 90)])).state) 20
        (ApiResponse.badStatus 500)).fetched = false :=
  (get_rates_ttl_cached_hit ⟨[], 0⟩ 10 (ApiResponse.ok [("RUB", 90)]) 20
      (ApiResponse.badStatus 500) [("RUB", 90)] (by decide) (by decide) (by decide)).1

/-- Claim C10: a successful fetch with an empty rates mapping stores and
returns the empty payload, but the stored empty entry never yields a cache
hit: the directly following call performs a network fetch no matter how close
in time it is. -/
theorem get_rates_empty_payload_refetch :
    ∀ (st : FinState) (now now2 : Int) (r2 : ApiResponse),
      isCacheHit st now = false →
      (get_rates st now (ApiResponse.ok [])).result = some [] ∧
      (get_rates st now (ApiResponse.ok [])).state = ⟨[], now⟩ ∧
      (get_rates ((get_rates st now (ApiResponse.ok [])).state) now2 r2).fetched = true := by
  intro st now now2 r2 h
  have h1 : get_rates st now (ApiResponse.ok []) = ⟨some [], ⟨[], now⟩, true⟩ := by
    simp [get_rates, h]
  rw [h1]
  have hmiss : isCacheHit ⟨[], now⟩ now2 = false := by
    simp [isCacheHit]
  cases r2 with
  | ok r => simp [get_rates, hmiss]
  | badStatus s => simp [get_rates, hmiss]
  | badPayload => simp [get_rates, hmiss]
  | netError m => simp [get_rates, hmiss]

/-- Witness for C10: concrete empty-payload fetch at time 0 and re-fetch one
time unit later, far inside the TTL. -/
theorem get_rates_empty_payload_refetch_witness :
    (get_rates (⟨[], 0⟩ : FinState) 0 (ApiResponse.ok [])).result = some [] ∧
    (get_rates (⟨[], 0⟩ : FinState) 0 (ApiResponse.ok [])).state = ⟨[], 0⟩ ∧
    (get_rates ((get_rates (⟨[], 0⟩ : FinState) 0 (ApiResponse.ok [])).state) 1
        (ApiResponse.ok [("RUB", 90)])).fetched = true :=
  get_rates_empty_payload_refetch ⟨[], 0⟩ 0 1 (ApiResponse.ok [("RUB", 90)]) (by decide)

/-! ### Theorems: category fallback and empty aggregation (claims C7, C8) -/

/-- Claim C7: a category missing from the feed-channel table resolves, without
failing, to the general source list, and the aggregation result is exactly
the aggregation over the general list (the total function cannot raise). -/
theorem unknown_category_falls_back :
    ∀ (category : String) (oracle : String → String → Option (List RawItem)),
      lookupChannels category = none →
      getSources category = generalChannels ∧
      get_news_by_category category oracle = getNewsOfSources generalChannels oracle ∧
      get_news_by_category category oracle = get_news_by_category generalKey oracle := by
  intro c oracle h
  have hs : getSources c = generalChannels := by simp [getSources, h]
  have hg : getSources generalKey = generalChannels := by decide
  refine ⟨hs, ?_, ?_⟩
  · rw [get_news_by_category, hs]
  · rw [get_news_by_category, hs, get_news_by_category, hg]

/-- Witness for C7 at the concrete unknown category "memes". -/
theorem unknown_category_falls_back_witness :
    get_news_by_category memesKey noFeed = get_news_by_category generalKey noFeed :=
  (unknown_category_falls_back memesKey noFeed (by decide)).2.2

/-- When every source of the list fails, nothing is collected. -/
theorem collectArticles_all_failed :
    ∀ (srcs : List (String × String)) (oracle : String → String → Option (List RawItem)),
      (∀ name url, (name, url) ∈ srcs → oracle name url = none) →
      collectArticles (srcs.map (fun p => fetchSource p.1 (oracle p.1 p.2))) = [] := by
  intro srcs oracle h
  induction srcs with
  | nil => rfl
  | cons p rest ih =>
    have hp : oracle p.1 p.2 = none := h p.1 p.2 (List.mem_cons_self p rest)
    have hrest := ih (fun name url hm => h name url (List.mem_cons_of_mem p hm))
    have hfs : fetchSource p.1 (oracle p.1 p.2) = none := by rw [hp]; rfl
    simp only [List.map_cons, hfs, collectArticles]
    exact hrest

/-- Claim C8: when every source fetch fails, the aggregation returns the empty
signal None instead of raising, and the formatter renders the no-content
message for it. -/
theorem all_sources_fail_empty_result :
    ∀ (category : String) (oracle : String → String → Option (List RawItem)) (title : String),
      (∀ name url, (name, url) ∈ getSources category → oracle name url = none) →
      get_news_by_category category oracle = none ∧
      format_news none title = noNewsText := by
  intro category oracle title h
  refine ⟨?_, rfl⟩
  rw [get_news_by_category, getNewsOfSources, aggregate]
  rw [collectArticles_all_failed (getSources category) oracle h]
  rfl

/-- Witness for C8 with the general category and the always-failing oracle. -/
theorem all_sources_fail_empty_result_witness :
    get_news_by_category generalKey noFeed = none ∧
    format_news none newsHeader = noNewsText :=
  all_sources_fail_empty_result generalKey noFeed newsHeader (fun _ _ _ => rfl)

/-! ### Theorems: dispatcher trigger (claim C3) -/

/-- A user id not present among the keys never receives a trigger. -/
theorem broadcastTick_count_zero :
    ∀ (now : Int) (subs : List (Nat × Subscription)) (uid : Nat),
      uid ∉ subs.map Prod.fst → (broadcastTick now subs).count uid = 0 := by
  intro now subs uid h
  induction subs with
  | nil => rfl
  | cons p rest ih =>
    simp only [List.map_cons, List.mem_cons] at h
    push_neg at h
    obtain ⟨h1, h2⟩ := h
    by_cases hc : fmtHM (now + p.2.tz) = p.2.time
    · have hcons : broadcastTick now (p :: rest) = p.1 :: broadcastTick now rest := by
        simp [broadcastTick, List.filterMap_cons, hc]
      rw [hcons, List.count_cons_of_ne h1]
      exact ih h2
    · have hcons : broadcastTick now (p :: rest) = broadcastTick now rest := by
        simp [broadcastTick, List.filterMap_cons, hc]
      rw [hcons]
      exact ih h2

/-- Claim C3: in one dispatcher tick, a held subscription gets exactly one
fetch-and-deliver trigger when the formatted local time (UTC now plus stored
offset, rendered HH:MM) equals its configured time string, and none
otherwise. -/
theorem broadcast_fires_iff_exact :
    ∀ (now : Int) (subs : List (Nat × Subscription)) (uid : Nat) (sub : Subscription),
      (subs.map Prod.fst).Nodup → (uid, sub) ∈ subs →
      (broadcastTick now subs).count uid =
        if fmtHM (now + sub.tz) = sub.time then 1 else 0 := by
  intro now subs uid sub hnd hmem
  induction subs with
  | nil => cases hmem
  | cons p rest ih =>
    obtain ⟨k, s⟩ := p
    simp only [List.map_cons, List.nodup_cons] at hnd
    obtain ⟨hk, hnd2⟩ := hnd
    rcases List.mem_cons.mp hmem with heq | hmem2
    · injection heq with h1 h2
      subst h1
      subst h2
      have h0 : (broadcastTick now rest).count uid = 0 := broadcastTick_count_zero now rest uid hk
      by_cases hc : fmtHM (now + sub.tz) = sub.time
      · have hcons : broadcastTick now ((uid, sub) :: rest) = uid :: broadcastTick now rest := by
          simp [broadcastTick, List.filterMap_cons, hc]
        rw [hcons, List.count_cons_self, h0, if_pos hc]
      · have hcons : broadcastTick now ((uid, sub) :: rest) = broadcastTick now rest := by
          simp [broadcastTick, List.filterMap_cons, hc]
        rw [hcons, h0, if_neg hc]
    · have huid : uid ∈ rest.map Prod.fst :=
        List.mem_map.mpr ⟨(uid, sub), hmem2, rfl⟩
      have hkne : k ≠ uid := fun he => hk (he ▸ huid)
      have ihres := ih hnd2 hmem2
      by_cases hc : fmtHM (now + s.tz) = s.time
      · have hcons : broadcastTick now ((k, s) :: rest) = k :: broadcastTick now rest := by
          simp [broadcastTick, List.filterMap_cons, hc]
        rw [hcons, List.count_cons_of_ne (fun he => hkne he.symm)]
        exact ihres
      · have hcons : broadcastTick now ((k, s) :: rest) = broadcastTick now rest := by
          simp [broadcastTick, List.filterMap_cons, hc]
        rw [hcons]
        exact ihres

/-- Witness for C3: the Paris scenario at the UTC instant whose local
rendering is exactly 08:30. -/
theorem broadcast_fires_iff_exact_witness :
    (broadcastTick 27000 parisSubs).count 42 = 1 := by
  have h := broadcast_fires_iff_exact 27000 parisSubs 42 parisSub (by decide) (by decide)
  rw [if_pos (by decide)] at h
  exact h

/-! ### Theorems: subscription time validation (claim C9) -/

/-- Accepted checkHM values are within the validated ranges. -/
theorem checkHM_bounds :
    ∀ (hcs mcs : List Char) (h m : Nat),
      checkHM hcs mcs = some (h, m) → h ≤ 23 ∧ m ≤ 59 := by
  intro hcs mcs h m hp
  unfold checkHM at hp
  split at hp
  · split at hp
    next hcond =>
      injection hp with hpe
      injection hpe with he1 he2
      subst he1
      subst he2
      simpa [Bool.and_eq_true] using hcond
    next => cases hp
  · cases hp

/-- Accepted parseSubTime values are within the validated ranges. -/
theorem parseSubTime_bounds :
    ∀ (raw : String) (h m : Nat),
      parseSubTime raw = some (h, m) → h ≤ 23 ∧ m ≤ 59 := by
  intro raw h m hp
  unfold parseSubTime at hp
  split at hp
  · split at hp
    · exact checkHM_bounds _ _ h m hp
    · cases hp
  · split at hp
    · exact checkHM_bounds _ _ h m hp
    · cases hp
  · cases hp

/-- Looking up the stored key after an upsert yields the new record. -/
theorem lookupSub_upsert :
    ∀ (uid : Nat) (s : Subscription) (store : List (Nat × Subscription)),
      lookupSub uid (upsert uid s store) = some s := by
  intro uid s store
  induction store with
  | nil => simp [upsert, lookupSub]
  | cons p rest ih =>
    obtain ⟨k, v⟩ := p
    by_cases hk : k = uid
    · subst hk
      simp [upsert, lookupSub]
    · simp only [upsert, if_neg hk, lookupSub]
      exact ih

/-- A validated pair renders through the dispatcher clock formatter to
exactly its zero-padded HH:MM string. -/
theorem fmtHM_of_hm :
    ∀ (h m : Nat), h ≤ 23 → m ≤ 59 →
      fmtHM ((h : Int) * 3600 + (m : Int) * 60) = pad2 h ++ colonStr ++ pad2 m := by
  intro h m hh hm
  have he : ((h : Int) * 3600 + (m : Int) * 60).emod 86400
      = ((h * 3600 + m * 60 : Nat) : Int) := by
    push_cast
    exact Int.emod_eq_of_lt (by omega) (by omega)
  have h1 : (h * 3600 + m * 60) / 3600 = h := by omega
  have h2 : (h * 3600 + m * 60) % 3600 / 60 = m := by omega
  simp only [fmtHM, he, Int.toNat_natCast, h1, h2]

/-- Claim C9: subscription registration either rejects the input and leaves
the store unchanged, or stores the record with the delivery time normalized
to zero-padded HH:MM with validated hour and minute ranges; every stored
time is exactly what the dispatcher clock formatter produces for that time
of day. -/
theorem sub_time_stored_normalized :
    ∀ (raw city : String) (tz : Int) (uid : Nat) (store : List (Nat × Subscription)),
      (parseSubTime raw = none ∧ process_sub_time raw uid city tz store = store) ∨
      (∃ h m : Nat, parseSubTime raw = some (h, m) ∧ h ≤ 23 ∧ m ≤ 59 ∧
        process_sub_time raw uid city tz store =
          upsert uid ⟨city, pad2 h ++ colonStr ++ pad2 m, tz⟩ store ∧
        lookupSub uid (process_sub_time raw uid city tz store) =
          some ⟨city, pad2 h ++ colonStr ++ pad2 m, tz⟩ ∧
        fmtHM ((h : Int) * 3600 + (m : Int) * 60) = pad2 h ++ colonStr ++ pad2 m) := by
  intro raw city tz uid store
  cases hp : parseSubTime raw with
  | none =>
    left
    exact ⟨rfl, by simp [process_sub_time, hp]⟩
  | some pair =>
    obtain ⟨h, m⟩ := pair
    obtain ⟨hh, hm⟩ := parseSubTime_bounds raw h m hp
    right
    refine ⟨h, m, rfl, hh, hm, ?_, ?_, fmtHM_of_hm h m hh hm⟩
    · simp [process_sub_time, hp]
    · simp [process_sub_time, hp, lookupSub_upsert]

/-! ### Theorems: dispatcher failure isolation (claim C6) -/

/-- The per-subscription body never lets an exception escape: the delivery
call sits inside its own try block and the fetch failure is a sentinel. -/
theorem processSub_ok :
    ∀ (now : Int) (world : Nat → SubWorld) (p : Nat × Subscription),
      ∃ r, processSub now world p = Except.ok r := by
  intro now world p
  unfold processSub
  split
  · split
    · exact ⟨_, rfl⟩
    · split
      · exact ⟨_, rfl⟩
      · exact ⟨_, rfl⟩
  · exact ⟨_, rfl⟩

/-- The tick body processes every held subscription: no per-subscription
failure aborts the traversal. -/
theorem runTick_ok :
    ∀ (now : Int) (world : Nat → SubWorld) (subs : List (Nat × Subscription)),
      ∃ reports, runTick now world subs = Except.ok reports ∧
        reports.length = subs.length := by
  intro now world subs
  induction subs with
  | nil => exact ⟨[], rfl, rfl⟩
  | cons p rest ih =>
    obtain ⟨r, hr⟩ := processSub_ok now world p
    obtain ⟨rs, hrs, hlen⟩ := ih
    refine ⟨r :: rs, ?_, by simp [hlen]⟩
    simp [runTick, hr, hrs, Bind.bind, Except.bind]

/-- Claim C6: in one dispatcher tick every held subscription is processed no
matter what delivery or fetch failures occur, an exception escaping the tick
body is absorbed at the loop level with the fixed 60 unit sleep, and the
loop continues after every tick outcome. -/
theorem dispatcher_loop_survives_failures :
    ∀ (now : Int) (world : Nat → SubWorld) (subs : List (Nat × Subscription)) (sec : Nat),
      (∃ reports, runTick now world subs = Except.ok reports ∧
        reports.length = subs.length) ∧
      (∀ e : String, loopStep (Except.error e) sec = (60, true)) ∧
      ∀ tick : Except String (List SubReport), (loopStep tick sec).2 = true := by
  intro now world subs sec
  refine ⟨runTick_ok now world subs, fun e => rfl, fun tick => ?_⟩
  cases tick <;> rfl

/-! ### Lemmas about the dedup pass -/

/-- The dedup pass only drops elements: its output is a sublist of its input. -/
theorem dedupArticles_sublist :
    ∀ (seen : List String) (l : List Article), dedupArticles seen l <+ l := by
  intro seen l
  induction l generalizing seen with
  | nil => simp [dedupArticles]
  | cons a rest ih =>
    simp only [dedupArticles]
    split
    · exact (ih seen).cons a
    · exact (ih _).cons₂ a

/-- Titles of survivors were not in the incoming seen set. -/
theorem mem_dedupArticles_not_seen :
    ∀ (seen : List String) (l : List Article) (a : Article),
      a ∈ dedupArticles seen l → normTitle a.title ∉ seen := by
  intro seen l
  induction l generalizing seen with
  | nil => intro a h; cases h
  | cons b rest ih =>
    intro a h
    by_cases hc : normTitle b.title ∈ seen
    · rw [dedupArticles, if_pos hc] at h
      exact ih seen a h
    · rw [dedupArticles, if_neg hc] at h
      rcases List.mem_cons.mp h with rfl | h2
      · exact hc
      · have h3 := ih _ a h2
        exact fun hs => h3 (List.mem_cons_of_mem _ hs)

/-- A survivor whose title is not in the seen set is the first element of the
input carrying its normalized title. -/
theorem dedupArticles_head_filter :
    ∀ (seen : List String) (l : List Article) (a : Article),
      a ∈ dedupArticles seen l →
      normTitle a.title ∈ seen ∨
        (l.filter (fun b => normTitle b.title == normTitle a.title)).head? = some a := by
  intro seen l
  induction l generalizing seen with
  | nil => intro a h; cases h
  | cons b rest ih =>
    intro a h
    by_cases hc : normTitle b.title ∈ seen
    · rw [dedupArticles, if_pos hc] at h
      rcases ih seen a h with hseen | hhead
      · exact Or.inl hseen
      · by_cases hbt : normTitle b.title = normTitle a.title
        · exact Or.inl (hbt ▸ hc)
        · right
          rw [List.filter_cons_of_neg (by simpa using hbt)]
          exact hhead
    · rw [dedupArticles, if_neg hc] at h
      rcases List.mem_cons.mp h with rfl | h2
      · right
        rw [List.filter_cons_of_pos (by simp)]
        rfl
      · have hnotin := mem_dedupArticles_not_seen _ _ a h2
        have hne : normTitle b.title ≠ normTitle a.title :=
          fun he => hnotin (he ▸ List.mem_cons_self _ _)
        rcases ih _ a h2 with hseen | hhead
        · exact absurd hseen hnotin
        · right
          rw [List.filter_cons_of_neg (by simpa using hne)]
          exact hhead

/-- The survivors carry pairwise distinct normalized titles. -/
theorem dedupArticles_titles_nodup :
    ∀ (seen : List String) (l : List Article),
      ((dedupArticles seen l).map (fun a => normTitle a.title)).Nodup := by
  intro seen l
  induction l generalizing seen with
  | nil => simp [dedupArticles]
  | cons b rest ih =>
    by_cases hc : normTitle b.title ∈ seen
    · rw [dedupArticles, if_pos hc]
      exact ih seen
    · rw [dedupArticles, if_neg hc]
      rw [List.map_cons, List.nodup_cons]
      constructor
      · intro hmem
        obtain ⟨a, ha, he⟩ := List.mem_map.mp hmem
        exact mem_dedupArticles_not_seen _ _ a ha (he ▸ List.mem_cons_self _ _)
      · exact ih _

/-- Every normalized title of the input either was already seen or is carried
by some survivor. -/
theorem dedupArticles_covers :
    ∀ (seen : List String) (l : List Article) (b : Article), b ∈ l →
      normTitle b.title ∈ seen ∨
        ∃ a ∈ dedupArticles seen l, normTitle a.title = normTitle b.title := by
  intro seen l
  induction l generalizing seen with
  | nil => intro b h; cases h
  | cons c rest ih =>
    intro b hb
    rcases List.mem_cons.mp hb with heq | hb2
    · subst heq
      by_cases hc : normTitle b.title ∈ seen
      · rw [dedupArticles, if_pos hc]
        exact Or.inl hc
      · rw [dedupArticles, if_neg hc]
        exact Or.inr ⟨b, List.mem_cons_self _ _, rfl⟩
    · by_cases hc : normTitle c.title ∈ seen
      · rw [dedupArticles, if_pos hc]
        exact ih seen b hb2
      · rw [dedupArticles, if_neg hc]
        rcases ih (normTitle c.title :: seen) b hb2 with hseen | ⟨a, ha, he⟩
        · rcases List.mem_cons.mp hseen with he2 | hs
          · exact Or.inr ⟨c, List.mem_cons_self _ _, he2.symm⟩
          · exact Or.inl hs
        · exact Or.inr ⟨a, List.mem_cons_of_mem _ ha, he⟩

/-! ### Lemmas about the stable sort -/

/-- Filtering by a predicate all of whose satisfiers are tied in the sort key
commutes with the stable sort: tied items keep their discovery order. -/
theorem filter_sortArticles :
    ∀ (p : Article → Bool),
      (∀ x y, p x = true → p y = true → tsKey x = tsKey y) →
      ∀ l, (sortArticles l).filter p = l.filter p := by
  intro p hp l
  have hpw : (l.filter p).Pairwise artLE := by
    apply List.pairwise_of_forall_mem_list
    intro x hx y hy
    have hxp := (List.mem_filter.mp hx).2
    have hyp := (List.mem_filter.mp hy).2
    exact le_of_eq (hp y x hyp hxp)
  have h1 : l.filter p <+ sortArticles l :=
    List.sublist_insertionSort hpw (List.filter_sublist l)
  have h2 : l.filter p <+ (sortArticles l).filter p := by
    have h3 := h1.filter p
    rwa [List.filter_eq_self.mpr (fun a ha => (List.mem_filter.mp ha).2)] at h3
  have hperm : (sortArticles l).filter p ~ l.filter p :=
    (List.perm_insertionSort artLE l).filter p
  exact (h2.eq_of_length_le (le_of_eq hperm.length_eq)).symm

/-- A list of articles whose normalized titles are pairwise distinct holds at
most one article per normalized title. -/
theorem countP_title_le_one :
    ∀ (m : List Article), ((m.map (fun a => normTitle a.title)).Nodup) →
      ∀ t : String, m.countP (fun a => normTitle a.title == t) ≤ 1 := by
  intro m hm t
  have h1 := List.nodup_iff_count_le_one.mp hm t
  have h2 : (m.map (fun a => normTitle a.title)).count t
      = m.countP (fun a => normTitle a.title == t) := by
    simp only [List.count, List.countP_map]
    rfl
  rw [h2] at h1
  exact h1

/-- Unpacking of a successful aggregation. -/
theorem aggregate_eq_some :
    ∀ (results : List (Option (List Article))) (out : NewsResult),
      aggregate results = some out →
      out = ⟨smartMixLabel,
        (dedupArticles [] (sortArticles (collectArticles results))).take 7⟩ := by
  intro results out h
  unfold aggregate at h
  by_cases he : (collectArticles results).isEmpty
  · rw [if_pos he] at h
    cases h
  · rw [if_neg he] at h
    exact (Option.some.inj h).symm

/-! ### Theorems: aggregation ordering and dedup (claims C1, C2) -/

/-- Claim C2: a successful aggregation yields at most 7 articles, sorted by
freshness descending; articles tied on a timestamp appear as a sublist of
the merged source-batch pile, i.e. in discovery order. -/
theorem news_result_sorted_and_capped :
    ∀ (results : List (Option (List Article))) (out : NewsResult),
      aggregate results = some out →
      out.articles.length ≤ 7 ∧
      out.articles.Pairwise (fun a b => tsKey b ≤ tsKey a) ∧
      ∀ t : Int, out.articles.filter (fun a => tsKey a == t) <+ collectArticles results := by
  intro results out h
  have hout := aggregate_eq_some results out h
  subst hout
  have hsub : (dedupArticles [] (sortArticles (collectArticles results))).take 7
      <+ sortArticles (collectArticles results) :=
    (List.take_sublist _ _).trans (dedupArticles_sublist _ _)
  refine ⟨List.length_take_le _ _, ?_, ?_⟩
  · have hsorted : (sortArticles (collectArticles results)).Pairwise artLE :=
      List.sorted_insertionSort artLE _
    exact hsorted.sublist hsub
  · intro t
    have hq : ∀ x y, (tsKey x == t) = true → (tsKey y == t) = true → tsKey x = tsKey y := by
      intro x y hx hy
      simp only [beq_iff_eq] at hx hy
      rw [hx, hy]
    have h2 := hsub.filter (fun a => tsKey a == t)
    rw [filter_sortArticles _ hq] at h2
    exact h2.trans (List.filter_sublist _)

/-- Witness for C2 on a concrete three-article aggregation with a freshness
tie, instantiated at the tied timestamp. -/
theorem news_result_sorted_and_capped_witness :
    w2Out.articles.filter (fun a => tsKey a == (150 : Int)) <+ collectArticles w2Results :=
  (news_result_sorted_and_capped w2Results w2Out (by decide)).2.2 150

/-- Claim C1, counterexample: with eight distinct normalized titles among the
fetched items, the title ranked eighth occurs among the fetched items but
zero times in the returned list, because of the cap of 7. This refutes the
universally quantified "exactly one item with that normalized title". -/
theorem news_cap_drops_title_counterexample :
    cexT8 ∈ (collectArticles cexResults).map (fun a => normTitle a.title) ∧
    (aggregate cexResults).map
        (fun r => r.articles.countP (fun a => normTitle a.title == cexT8)) = some 0 := by
  decide

/-- Claim C1 (amended): each normalized title among the fetched items occurs
at most once in the returned list, exactly once when the fetched items span
at most 7 distinct normalized titles; every returned article is one of the
fetched items (original title and fields), carries the maximal freshness
timestamp among the fetched items sharing its normalized title, and is the
earliest-discovered among those tied at that maximal timestamp. -/
theorem news_dedup_keeps_freshest :
    ∀ (results : List (Option (List Article))) (out : NewsResult),
      aggregate results = some out →
      (∀ t : String, out.articles.countP (fun a => normTitle a.title == t) ≤ 1) ∧
      (∀ a ∈ out.articles,
        a ∈ collectArticles results ∧
        (∀ b ∈ collectArticles results,
          normTitle b.title = normTitle a.title → tsKey b ≤ tsKey a) ∧
        ((collectArticles results).filter
            (fun b => normTitle b.title == normTitle a.title && (tsKey b == tsKey a))).head?
          = some a) ∧
      ((((collectArticles results).map (fun a => normTitle a.title)).dedup.length ≤ 7) →
        ∀ b ∈ collectArticles results,
          out.articles.countP (fun a => normTitle a.title == normTitle b.title) = 1) := by
  intro results out h
  have hout := aggregate_eq_some results out h
  subst hout
  have hperm : sortArticles (collectArticles results) ~ collectArticles results :=
    List.perm_insertionSort artLE _
  have hsorted : (sortArticles (collectArticles results)).Pairwise artLE :=
    List.sorted_insertionSort artLE _
  have htake : (dedupArticles [] (sortArticles (collectArticles results))).take 7
      <+ dedupArticles [] (sortArticles (collectArticles results)) := List.take_sublist _ _
  have hdsub : dedupArticles [] (sortArticles (collectArticles results))
      <+ sortArticles (collectArticles results) := dedupArticles_sublist _ _
  refine ⟨?_, ?_, ?_⟩
  · intro t
    exact countP_title_le_one _
      ((dedupArticles_titles_nodup [] _).sublist (htake.map _)) t
  · intro a ha
    have had : a ∈ dedupArticles [] (sortArticles (collectArticles results)) := htake.subset ha
    have hasrt : a ∈ sortArticles (collectArticles results) := hdsub.subset had
    have haall : a ∈ collectArticles results := hperm.subset hasrt
    rcases dedupArticles_head_filter [] _ a had with hseen | hhead
    · cases hseen
    cases hft : (sortArticles (collectArticles results)).filter
        (fun b => normTitle b.title == normTitle a.title) with
    | nil => rw [hft] at hhead; cases hhead
    | cons x xs =>
      rw [hft] at hhead
      have hx : x = a := by simpa using hhead
      rw [hx] at hft
      have hpwf : ((sortArticles (collectArticles results)).filter
          (fun b => normTitle b.title == normTitle a.title)).Pairwise artLE :=
        hsorted.sublist (List.filter_sublist _)
      rw [hft] at hpwf
      have hmax : ∀ b ∈ collectArticles results,
          normTitle b.title = normTitle a.title → tsKey b ≤ tsKey a := by
        intro b hb hbt
        have hbsrt : b ∈ sortArticles (collectArticles results) := hperm.mem_iff.mpr hb
        have hbf : b ∈ (sortArticles (collectArticles results)).filter
            (fun c => normTitle c.title == normTitle a.title) :=
          List.mem_filter.mpr ⟨hbsrt, by simp [hbt]⟩
        rw [hft] at hbf
        rcases List.mem_cons.mp hbf with heq | hbx
        · exact le_of_eq (congrArg tsKey heq)
        · exact (List.pairwise_cons.mp hpwf).1 b hbx
      refine ⟨haall, hmax, ?_⟩
      have hq : ∀ x y,
          (normTitle x.title == normTitle a.title && (tsKey x == tsKey a)) = true →
          (normTitle y.title == normTitle a.title && (tsKey y == tsKey a)) = true →
          tsKey x = tsKey y := by
        intro x y hx hy
        simp only [Bool.and_eq_true, beq_iff_eq] at hx hy
        rw [hx.2, hy.2]
      have hstab := filter_sortArticles _ hq (collectArticles results)
      rw [← hstab]
      have hcomm : (sortArticles (collectArticles results)).filter
            (fun b => normTitle b.title == normTitle a.title && (tsKey b == tsKey a))
          = List.filter (fun b => tsKey b == tsKey a)
              ((sortArticles (collectArticles results)).filter
                (fun b => normTitle b.title == normTitle a.title)) := by
        rw [List.filter_filter]
        apply List.filter_congr
        intro b hb
        exact Bool.and_comm _ _
      rw [hcomm, hft, List.filter_cons_of_pos (by simp)]
      rfl
  · intro h7 b hb
    have hnodA : ((dedupArticles [] (sortArticles (collectArticles results))).map
        (fun a => normTitle a.title)).Nodup := dedupArticles_titles_nodup [] _
    have hmemAB : ∀ t, t ∈ (dedupArticles [] (sortArticles (collectArticles results))).map
          (fun a => normTitle a.title)
        ↔ t ∈ ((sortArticles (collectArticles results)).map
            (fun a => normTitle a.title)).dedup := by
      intro t
      rw [List.mem_dedup]
      constructor
      · intro ht
        obtain ⟨a, ha, rfl⟩ := List.mem_map.mp ht
        exact List.mem_map_of_mem _ (hdsub.subset ha)
      · intro ht
        obtain ⟨c, hc, rfl⟩ := List.mem_map.mp ht
        rcases dedupArticles_covers [] _ c hc with hs | ⟨a, ha, he⟩
        · cases hs
        · exact List.mem_map.mpr ⟨a, ha, he⟩
    have hAB := (List.perm_ext_iff_of_nodup hnodA (List.nodup_dedup _)).mpr hmemAB
    have hlen1 : (dedupArticles [] (sortArticles (collectArticles results))).length
        = ((sortArticles (collectArticles results)).map
            (fun a => normTitle a.title)).dedup.length := by
      have hl := hAB.length_eq
      rwa [List.length_map] at hl
    have hlen2 : ((sortArticles (collectArticles results)).map
          (fun a => normTitle a.title)).dedup.length
        = (((collectArticles results)).map (fun a => normTitle a.title)).dedup.length :=
      ((hperm.map _).dedup).length_eq
    have hd7 : (dedupArticles [] (sortArticles (collectArticles results))).length ≤ 7 := by
      omega
    have htk : (dedupArticles [] (sortArticles (collectArticles results))).take 7
        = dedupArticles [] (sortArticles (collectArticles results)) :=
      List.take_of_length_le hd7
    show ((dedupArticles [] (sortArticles (collectArticles results))).take 7).countP
        (fun a => normTitle a.title == normTitle b.title) = 1
    rw [htk]
    have hbs : b ∈ sortArticles (collectArticles results) := hperm.mem_iff.mpr hb
    rcases dedupArticles_covers [] _ b hbs with hs | ⟨a, ha, he⟩
    · cases hs
    · have hpos : 0 < (dedupArticles [] (sortArticles (collectArticles results))).countP
          (fun x => normTitle x.title == normTitle b.title) :=
        List.countP_pos_iff.mpr ⟨a, ha, by simp [he]⟩
      have hle := countP_title_le_one
        (dedupArticles [] (sortArticles (collectArticles results)))
        (dedupArticles_titles_nodup [] (sortArticles (collectArticles results)))
        (normTitle b.title)
      omega

/-- Witness for the amended C1: the spec scenario with the two duplicate
storm headlines; the merged result keeps exactly one, the fresher feed B
item. -/
theorem news_dedup_keeps_freshest_witness :
    wOut.articles.countP (fun a => normTitle a.title == normTitle wArtA.title) = 1 :=
  (news_dedup_keeps_freshest wResults wOut (by decide)).2.2 (by decide) wArtA (by decide)

end SkyPulse
